import Mathlib

/-!
Verification development for the agent task-orchestration and visualizer
core (`codex-rs/core/src/tasks/mod.rs` and `codex-rs/core/src/visualizer.rs`).

The development shallowly embeds:
* the URL normalization performed before connecting to the visualizer sink
  (`ensure_producer_role`, visualizer.rs lines 45-55, together with the
  fallback in `AgentVisualizer::new`, lines 63-71);
* the producer-side `emit` path over a bounded tokio mpsc channel
  (visualizer.rs lines 179-204);
* the background forwarder worker loop's sleeping behaviour
  (visualizer.rs lines 73-165);
* the session task-lifecycle operations (`spawn_task`, `abort_all_tasks`,
  `on_task_finished`, `register_new_active_task`, `take_all_running_tasks`,
  `handle_task_abort`, tasks/mod.rs lines 60-212), plus an interleaving model
  of the race between a finishing worker and a concurrent abort.

External library behaviour that the source relies on is embedded with its
documented semantics: the `url` crate's WHATWG parser (restricted to the URL
shapes exercised here, with query components kept verbatim, i.e. without
percent-encoding, since no claim involves reserved characters), and tokio's
bounded mpsc channel, whose `send(..).await` waits for capacity when the
queue is full and fails only when the channel is closed.
-/

set_option maxRecDepth 4000

namespace CodexCore

/-! ## URL model (url crate, WHATWG-style, as used by visualizer.rs) -/

/-- Characters permitted in a URL scheme after the initial letter. -/
def isSchemeChar (c : Char) : Bool :=
  c.isAlphanum || c == '+' || c == '-' || c == '.'

/-- Splits a leading `scheme:` off a character list. `acc` holds the scheme
characters read so far (reversed). Returns `(scheme, rest)` on success. -/
def schemeSplit : List Char → List Char → Option (List Char × List Char)
  | _, [] => none
  | acc, c :: cs =>
    if c == ':' then some (acc.reverse, cs)
    else if isSchemeChar c then schemeSplit (c :: acc) cs
    else none

/-- Splits a character list at the first `?`, returning the part before it
and (when a `?` is present) the part after it. -/
def splitOnQuestion : List Char → List Char × Option (List Char)
  | [] => ([], none)
  | c :: cs =>
    if c == '?' then ([], some cs)
    else
      let r := splitOnQuestion cs
      (c :: r.1, r.2)

/-- Splits a character list on a separator character. -/
def splitListOn (sep : Char) : List Char → List (List Char)
  | [] => [[]]
  | c :: cs =>
    let r := splitListOn sep cs
    if c == sep then [] :: r
    else
      match r with
      | [] => [[c]]
      | h :: t => (c :: h) :: t

/-- Turns one `key=value` query component into a pair; a component without
`=` becomes a pair with an empty value. -/
def pairOfComponent (l : List Char) : String × String :=
  let k := l.takeWhile (fun c => c ≠ '=')
  let v := l.dropWhile (fun c => c ≠ '=')
  (String.mk k, String.mk (v.drop 1))

/-- Parses a raw query string into key/value pairs (the `query_pairs`
iterator of the url crate, components kept verbatim). -/
def parseQueryPairs (q : List Char) : List (String × String) :=
  if q.isEmpty then [] else (splitListOn '&' q).map pairOfComponent

/-- Shallow model of a parsed `url::Url` value: scheme, optional authority
(present when the input contains `//` after the scheme), serialized path,
and optional query held as decoded key/value pairs. -/
structure Url where
  scheme : String
  authority : Option String
  path : String
  queryPairs : Option (List (String × String))
deriving DecidableEq

/-- Embeds `url::Url::parse`. A URL must start with `letter (alphanum|+|-|.)* :`.
With `//` the authority extends to the next `/`; a special-scheme URL with an
empty path gets path `/` (WHATWG normalization, as the url crate does for
`ws://host:port`). Without `//` the URL cannot be a base and the remainder up
to `?` is the path verbatim. In particular `localhost:9000` parses
successfully with scheme `localhost` and path `9000`. -/
def Url.parse (s : String) : Option Url :=
  match s.toList with
  | [] => none
  | c :: cs =>
    if c.isAlpha then
      match schemeSplit [c] cs with
      | none => none
      | some (sch, rest) =>
        let pq := splitOnQuestion rest
        let q := pq.2.map parseQueryPairs
        if pq.1.take 2 == ['/', '/'] then
          let afterSlashes := pq.1.drop 2
          let auth := afterSlashes.takeWhile (fun c => c ≠ '/')
          let p := afterSlashes.dropWhile (fun c => c ≠ '/')
          some { scheme := String.mk sch
                 authority := some (String.mk auth)
                 path := if p.isEmpty then "/" else String.mk p
                 queryPairs := q }
        else
          some { scheme := String.mk sch
                 authority := none
                 path := String.mk pq.1
                 queryPairs := q }
    else none

/-- Serializes a query pair list (the `form_urlencoded::Serializer` output,
restricted to components without reserved characters). -/
def serializeQuery (q : List (String × String)) : String :=
  String.intercalate "&" (q.map (fun kv => kv.1 ++ "=" ++ kv.2))

/-- Serializes a `Url` back to a string (`Url::into<String>`). -/
def Url.serialize (u : Url) : String :=
  u.scheme ++ ":" ++
    (match u.authority with
     | some a => "//" ++ a
     | none => "") ++
    u.path ++
    (match u.queryPairs with
     | some q => "?" ++ serializeQuery q
     | none => "")

/-! ## ensure_producer_role (visualizer.rs lines 45-55) -/

/-- Embeds the query rewrite of `ensure_producer_role`: keep every pair whose
key is not `role`, in order, then append `("role", "producer")`
(visualizer.rs lines 47-52). -/
def producerQuery (q : List (String × String)) : List (String × String) :=
  q.filter (fun kv => kv.1 != "role") ++ [("role", "producer")]

/-- The parsed URL value after `parsed.set_query(Some(&query))` in
`ensure_producer_role` (visualizer.rs line 53): the original URL with its
query replaced by `producerQuery`. `none` when `Url::parse` failed. -/
def connectUrlParsed (raw : String) : Option Url :=
  (Url.parse raw).map (fun u =>
    { u with queryPairs := some (producerQuery (u.queryPairs.getD [])) })

/-- Embeds `ensure_producer_role` (visualizer.rs lines 45-55): parse, rewrite
the query, serialize. `none` models the `Err` branch. -/
def ensure_producer_role (raw : String) : Option String :=
  (connectUrlParsed raw).map Url.serialize

/-- Embeds the connect-URL computation of `AgentVisualizer::new`
(visualizer.rs lines 63-71): the prepared URL, or the raw string unchanged
when `ensure_producer_role` fails. -/
def connectUrl (url : String) : String :=
  (ensure_producer_role url).getD url

/-! ## VisualizerEvent and the producer-side emit path
(visualizer.rs lines 20-43, 57-77, 179-204) -/

/-- Embeds `VisualizerEvent` (visualizer.rs lines 32-43). The JSON payloads
`action` and `state` are kept abstract as strings; `conversation_id` is an
opaque identifier. -/
structure VisualizerEvent where
  sequence : Nat
  timestampMs : Nat
  conversationId : Option String
  actionType : String
  action : String
  state : Option String
deriving DecidableEq

/-- Capacity of the bounded mpsc channel, `mpsc::channel(256)`
(visualizer.rs line 72). -/
def channelCapacity : Nat := 256

/-- State of the bounded tokio mpsc channel between producers and the
forwarder worker: the queued events and whether the channel is closed
(receiver dropped, i.e. the worker exited). -/
structure VisualizerChannel where
  queue : List VisualizerEvent
  closed : Bool
deriving DecidableEq

/-- Observable outcome of one `emit` call.
`noop`: the forwarder is disabled (`sender` is `None`), nothing happens.
`enqueued`: `tx.send(event).await` found room and delivered the event.
`blocked`: the queue is full and the channel open, so `tx.send(event).await`
suspends the producer until the worker frees a slot (tokio's bounded `send`
waits for capacity; it never drops on a full queue).
`droppedClosed`: the channel is closed, `send` returns `Err` and the event is
dropped with a debug log (visualizer.rs lines 200-202). -/
inductive EmitOutcome
  | noop
  | enqueued
  | blocked
  | droppedClosed
deriving DecidableEq

/-- Embeds the producer half of `AgentVisualizer` (visualizer.rs lines
20-24): the optional channel and the atomic sequence counter. -/
structure AgentVisualizer where
  sender : Option VisualizerChannel
  sequence : Nat
deriving DecidableEq

/-- Embeds `AgentVisualizer::new` (visualizer.rs lines 63-177): `Some(url)` —
for any `url`, including the empty or whitespace-only string — creates the
bounded channel and spawns the worker; only `None` leaves `sender` empty.
The source has no emptiness check on the URL. -/
def AgentVisualizer.new (url : Option String) : AgentVisualizer :=
  match url with
  | some _ => { sender := some { queue := [], closed := false }, sequence := 0 }
  | none => { sender := none, sequence := 0 }

/-- Embeds `AgentVisualizer::emit` (visualizer.rs lines 179-204). When a
sender exists it stamps the wall clock (`now`, 0 standing for an unavailable
clock), fetch-adds the sequence counter, builds the event, and performs
`tx.send(event).await` with tokio's bounded-channel semantics: error if
closed, deliver if there is room, otherwise suspend the producer. -/
def AgentVisualizer.emit (v : AgentVisualizer) (now : Nat)
    (conversationId : Option String) (actionType : String) (action : String)
    (state : Option String) : AgentVisualizer × EmitOutcome :=
  match v.sender with
  | none => (v, .noop)
  | some ch =>
    let ev : VisualizerEvent :=
      { sequence := v.sequence
        timestampMs := now
        conversationId := conversationId
        actionType := actionType
        action := action
        state := state }
    if ch.closed then
      ({ sender := some ch, sequence := v.sequence + 1 }, .droppedClosed)
    else if ch.queue.length < channelCapacity then
      ({ sender := some { ch with queue := ch.queue ++ [ev] },
         sequence := v.sequence + 1 }, .enqueued)
    else
      ({ sender := some ch, sequence := v.sequence + 1 }, .blocked)

/-! ## Forwarder worker loop sleeps (visualizer.rs lines 73-165) -/

/-- The reconnect delay, bound once as `Duration::from_secs(1)` before the
worker loop (visualizer.rs line 76) and never reassigned; every
`tokio::time::sleep(retry_delay)` call in the loop (lines 96, 115, 139, 148,
160) passes this same value. -/
def retryDelaySecs : Nat := 1

/-- Embeds the forwarder worker loop (visualizer.rs lines 78-163) as a
fuel-indexed interpreter recording the seconds slept. `pending` says whether
an event is held for (re)transmission, `stream` whether a websocket is
connected, `rx` how many events the channel will still deliver (0 meaning
the channel is closed, so `recv` returns `None` and the loop breaks), and
`conn` / `snd` are oracle scripts giving the success of successive connect
and send attempts. A failed connect (lines 93-98) or a failed send (lines
144-150, 156-161) sleeps `retryDelaySecs` and retries with the event kept
pending; a successful send moves on to the next event. -/
def forwarderSleeps : Nat → Bool → Bool → Nat → List Bool → List Bool → List Nat
  | 0, _, _, _, _, _ => []
  | _ + 1, false, _, 0, _, _ => []
  | fuel + 1, false, st, r + 1, conn, snd => forwarderSleeps fuel true st r conn snd
  | _ + 1, true, false, _, [], _ => []
  | fuel + 1, true, false, r, true :: conn, snd => forwarderSleeps fuel true true r conn snd
  | fuel + 1, true, false, r, false :: conn, snd =>
      retryDelaySecs :: forwarderSleeps fuel true false r conn snd
  | _ + 1, true, true, _, _, [] => []
  | fuel + 1, true, true, r, conn, true :: snd => forwarderSleeps fuel false true r conn snd
  | fuel + 1, true, true, r, conn, false :: snd =>
      retryDelaySecs :: forwarderSleeps fuel true false r conn snd

/-- Modelled from the spec: the reconnect-backoff schedule the specification
describes (start at 1s, double after every failure, cap at 30s). `k` is the
number of consecutive failures still to be slept through, `b` the current
backoff. The source contains no such state. -/
def specBackoffSleeps : Nat → Nat → List Nat
  | 0, _ => []
  | k + 1, b => b :: specBackoffSleeps k (min (b * 2) 30)

/-- Modelled from the spec: the delays the spec predicts for `k` consecutive
failures starting from the initial 1s backoff. -/
def specSleepsAfter (k : Nat) : List Nat :=
  specBackoffSleeps k 1

/-! ## Session task lifecycle (tasks/mod.rs lines 60-212)

The types `ActiveTurn`, `RunningTask` and `TaskKind` live in
`crate::state`, which is not part of the provided sources; they are modelled
from the spec (section 3): an `ActiveTurn` holds a mapping from `sub_id` to
`RunningTask` plus the pending-input queue, `remove_task` removes a mapping
and reports whether the map is now empty, `add_task` inserts a mapping, and
`drain_tasks` returns all mappings. -/

/-- Embeds `TaskKind` (closed variant per spec section 3). -/
inductive TaskKind
  | Regular
  | Compact
  | Review
deriving DecidableEq

/-- Embeds `RunningTask` (spec section 3): `finished` models what
`handle.is_finished()` returns when the abort path inspects the task; the
polymorphic runner is irrelevant to the claims and omitted. -/
structure RunningTask where
  finished : Bool
  kind : TaskKind
deriving DecidableEq

/-- Modelled from the spec: `ActiveTurn` (spec section 3) — the mapping from
`sub_id` to `RunningTask` and the session's pending-input queue. -/
structure ActiveTurn where
  tasks : List (String × RunningTask)
  pendingInput : List String
deriving DecidableEq

/-- Host events sent through `send_event` (tasks/mod.rs lines 144-148 and
196-201). -/
inductive HostEvent
  | taskComplete (subId : String) (lastAgentMessage : Option String)
  | turnAborted (subId : String) (reason : String)
deriving DecidableEq

/-- The session state the task-lifecycle claims observe: the single
`active_turn` slot (at most one `ActiveTurn` exists per session because the
session holds exactly this one `Option` slot), the host events sent so far,
and the visualizer events (action type and subId) emitted so far. -/
structure SessionSt where
  activeTurn : Option ActiveTurn
  hostEvents : List HostEvent
  vizEvents : List (String × String)
deriving DecidableEq

/-- Number of tasks in the current active turn. -/
def turnTaskCount (s : SessionSt) : Nat :=
  match s.activeTurn with
  | none => 0
  | some tn => tn.tasks.length

/-- Embeds `Session::take_all_running_tasks` (tasks/mod.rs lines 166-176):
take the turn out of the slot (leaving `None`), clear its pending input, and
return its tasks; with no active turn return the empty list. -/
def take_all_running_tasks (s : SessionSt) : SessionSt × List (String × RunningTask) :=
  match s.activeTurn with
  | some tn => ({ s with activeTurn := none }, tn.tasks)
  | none => (s, [])

/-- Embeds `Session::handle_task_abort` (tasks/mod.rs lines 178-211): if the
worker already finished, return with no action and no event; otherwise cancel
the worker, run the kind-specific teardown, and emit the `TurnAborted` host
event followed by the `task_aborted` visualizer event. -/
def handle_task_abort (s : SessionSt) (subId : String) (task : RunningTask)
    (reason : String) : SessionSt :=
  if task.finished then s
  else
    { s with
      hostEvents := s.hostEvents ++ [.turnAborted subId reason]
      vizEvents := s.vizEvents ++ [("task_aborted", subId)] }

/-- Embeds `Session::abort_all_tasks` (tasks/mod.rs lines 121-125): take all
running tasks, then run `handle_task_abort` on each. -/
def abort_all_tasks (s : SessionSt) (reason : String) : SessionSt :=
  let tr := take_all_running_tasks s
  tr.2.foldl (fun acc p => handle_task_abort acc p.1 p.2 reason) tr.1

/-- Embeds `Session::register_new_active_task` (tasks/mod.rs lines 159-164):
install a fresh default `ActiveTurn` holding exactly the one new mapping. -/
def register_new_active_task (s : SessionSt) (subId : String) (task : RunningTask) :
    SessionSt :=
  { s with activeTurn := some { tasks := [(subId, task)], pendingInput := [] } }

/-- Embeds `Session::on_task_finished` (tasks/mod.rs lines 127-157): under
the lock, remove `sub_id` from the turn (`remove_task`, modelled from the
spec as removal plus a now-empty report) and tear the turn down when its map
became empty; then emit the `TaskComplete` host event and the
`task_completed` visualizer event unconditionally. -/
def on_task_finished (s : SessionSt) (subId : String)
    (lastAgentMessage : Option String) : SessionSt :=
  let active :=
    match s.activeTurn with
    | some tn =>
      let rest := tn.tasks.filter (fun p => p.1 != subId)
      if rest.isEmpty then none else some { tn with tasks := rest }
    | none => none
  { s with
    activeTurn := active
    hostEvents := s.hostEvents ++ [.taskComplete subId lastAgentMessage]
    vizEvents := s.vizEvents ++ [("task_completed", subId)] }

/-- Embeds `Session::spawn_task` (tasks/mod.rs lines 65-119): abort all
prior tasks with reason `Replaced`, start the worker (modelled separately in
the interleaving system below), register the new running task as the sole
entry of a fresh active turn, and emit the `task_spawned` visualizer event. -/
def spawn_task (s : SessionSt) (subId : String) (kind : TaskKind) : SessionSt :=
  let s1 := abort_all_tasks s "Replaced"
  let s2 := register_new_active_task s1 subId { finished := false, kind := kind }
  { s2 with vizEvents := s2.vizEvents ++ [("task_spawned", subId)] }

/-- The lock-protected critical sections that mutate the `active_turn` slot,
at the granularity at which concurrent callers can interleave: the take
inside `abort_all_tasks`, the install inside `spawn_task`, the removal inside
`on_task_finished`, and a whole `spawn_task` (whose two critical sections the
`opSpawn` case runs back to back). -/
inductive SessionOp
  | opAbortAll (reason : String)
  | opRegister (subId : String) (kind : TaskKind)
  | opFinish (subId : String) (lastAgentMessage : Option String)
  | opSpawn (subId : String) (kind : TaskKind)

/-- Applies one lifecycle operation to the session state. -/
def applyOp (s : SessionSt) : SessionOp → SessionSt
  | .opAbortAll reason => abort_all_tasks s reason
  | .opRegister subId kind =>
      register_new_active_task s subId { finished := false, kind := kind }
  | .opFinish subId m => on_task_finished s subId m
  | .opSpawn subId kind => spawn_task s subId kind

/-- Runs a sequence of lifecycle operations from a starting state. -/
def runOps (s : SessionSt) (l : List SessionOp) : SessionSt :=
  l.foldl applyOp s

/-- The session state of a fresh session: no active turn, no events sent. -/
def initSession : SessionSt :=
  { activeTurn := none, hostEvents := [], vizEvents := [] }

/-! ## Interleaving model of worker completion versus abort
(tasks/mod.rs lines 87-96 versus lines 121-125 and 178-211)

One spawned task whose background worker has started, and one concurrent
`abort_all_tasks` call. The worker thread runs the spawned future of
tasks/mod.rs lines 87-94: finish the `run` body, then `on_task_finished`
(remove from the turn under the lock, send `TaskComplete`, emit
`task_completed`); `handle.is_finished()` becomes true only after the whole
future, including both emissions, has run. The abort thread runs
`abort_all_tasks`: take the turn under the lock, check `is_finished`, cancel
the worker (taking effect at the worker's next await point, so steps the
worker already completed stand), run the runner teardown, send `TurnAborted`,
emit `task_aborted`. Each step is one await-to-await section. -/

/-- Joint state of the worker thread and the abort thread racing on one
task. `wpc`: worker program counter (0 run body, 1 remove-from-turn, 2 send
`TaskComplete`, 3 emit `task_completed`, 4 future finished). `apc`: abort
program counter (0 take-turn, 1 `is_finished` check, 2 `handle.abort()`,
3 runner teardown, 4 send `TurnAborted`, 5 emit `task_aborted`, 6 done).
`canc`: the worker has been cancelled. `turn`: the active turn still holds
the task. `took`: the abort thread took the task at step 0. `skip`: the
abort thread saw `is_finished` and returned early. The four counters record
how many times each terminal event has been emitted. -/
structure TaskRace where
  wpc : Nat
  apc : Nat
  canc : Bool
  turn : Bool
  took : Bool
  skip : Bool
  hostTC : Nat
  hostTA : Nat
  vizTC : Nat
  vizTA : Nat
deriving DecidableEq

/-- One step of the worker thread; a cancelled or finished worker does
nothing further. -/
def wstep (s : TaskRace) : TaskRace :=
  if s.canc then s
  else
    match s.wpc with
    | 0 => { s with wpc := 1 }
    | 1 => { s with turn := false, wpc := 2 }
    | 2 => { s with hostTC := s.hostTC + 1, wpc := 3 }
    | 3 => { s with vizTC := s.vizTC + 1, wpc := 4 }
    | _ => s

/-- One step of the abort thread. -/
def astep (s : TaskRace) : TaskRace :=
  match s.apc with
  | 0 =>
    if s.turn then { s with turn := false, took := true, apc := 1 }
    else { s with apc := 6 }
  | 1 =>
    if s.wpc == 4 then { s with skip := true, apc := 6 }
    else { s with apc := 2 }
  | 2 => { s with canc := true, apc := 3 }
  | 3 => { s with apc := 4 }
  | 4 => { s with hostTA := s.hostTA + 1, apc := 5 }
  | 5 => { s with vizTA := s.vizTA + 1, apc := 6 }
  | _ => s

/-- Thread identifiers of the race. -/
inductive Thr
  | w
  | a

/-- One scheduled step. -/
def raceStep (s : TaskRace) : Thr → TaskRace
  | .w => wstep s
  | .a => astep s

/-- Initial race state: worker started, turn installed, abort about to run. -/
def raceInit : TaskRace :=
  { wpc := 0, apc := 0, canc := false, turn := true, took := false,
    skip := false, hostTC := 0, hostTA := 0, vizTC := 0, vizTA := 0 }

/-- Runs a schedule (an arbitrary interleaving of the two threads). -/
def raceExec (l : List Thr) : TaskRace :=
  l.foldl raceStep raceInit

/-- A schedule is complete when the worker can take no further step (its
future finished or it was cancelled) and the abort call has returned. -/
def raceDone (s : TaskRace) : Bool :=
  (s.wpc == 4 || s.canc) && s.apc == 6

/-! ## Helper lemmas -/

/-- Filtering the non-`role` pairs again for `role` leaves nothing. -/
lemma filter_role_of_filter_ne (q : List (String × String)) :
    ((q.filter (fun kv => kv.1 != "role")).filter (fun kv => kv.1 == "role")) = [] := by
  induction q with
  | nil => rfl
  | cons h t ih =>
    by_cases hk : h.1 == "role" <;>
      simp [List.filter_cons, hk, bne, ih]

/-- Filtering for non-`role` pairs is idempotent. -/
lemma filter_ne_role_idem (q : List (String × String)) :
    ((q.filter (fun kv => kv.1 != "role")).filter (fun kv => kv.1 != "role")) =
      q.filter (fun kv => kv.1 != "role") := by
  induction q with
  | nil => rfl
  | cons h t ih =>
    by_cases hk : h.1 == "role" <;>
      simp [List.filter_cons, hk, bne, ih]

/-- The `handle_task_abort` embedding never touches the active-turn slot. -/
lemma handle_task_abort_activeTurn (s : SessionSt) (subId : String)
    (t : RunningTask) (r : String) :
    (handle_task_abort s subId t r).activeTurn = s.activeTurn := by
  unfold handle_task_abort
  split <;> rfl

/-- Folding `handle_task_abort` over a task list never touches the
active-turn slot. -/
lemma foldl_handle_task_abort_activeTurn (r : String) :
    ∀ (L : List (String × RunningTask)) (s : SessionSt),
      (L.foldl (fun acc p => handle_task_abort acc p.1 p.2 r) s).activeTurn =
        s.activeTurn := by
  intro L
  induction L with
  | nil => intro s; rfl
  | cons h t ih =>
    intro s
    simp [List.foldl_cons, handle_task_abort_activeTurn,
      ih (handle_task_abort s h.1 h.2 r)]

/-- After `abort_all_tasks` the active-turn slot is always empty. -/
lemma abort_all_tasks_activeTurn (s : SessionSt) (r : String) :
    (abort_all_tasks s r).activeTurn = none := by
  unfold abort_all_tasks take_all_running_tasks
  cases h : s.activeTurn with
  | none => simp [h]
  | some tn => simp [h, foldl_handle_task_abort_activeTurn]

/-! ## Concrete fixtures used by witnesses and counterexamples -/

/-- A sample visualizer event. -/
def sampleEvent : VisualizerEvent :=
  { sequence := 0, timestampMs := 0, conversationId := none,
    actionType := "task_spawned", action := "a", state := none }

/-- An open channel whose queue is at the 256-event capacity. -/
def fullChannel : VisualizerChannel :=
  { queue := List.replicate 256 sampleEvent, closed := false }

/-- A forwarder whose channel is closed (worker gone). -/
def closedViz : AgentVisualizer :=
  { sender := some { queue := [], closed := true }, sequence := 0 }

/-- The example URL of the spec's end-to-end scenario 4. -/
def exampleRawUrl : String := "ws://x/y?role=consumer&k=v"

/-- The parse of `exampleRawUrl`. -/
def exampleParsedUrl : Url :=
  { scheme := "ws", authority := some "x", path := "/y",
    queryPairs := some [("role", "consumer"), ("k", "v")] }

/-- The connect URL value derived from `exampleRawUrl`. -/
def exampleConnectUrl : Url :=
  { scheme := "ws", authority := some "x", path := "/y",
    queryPairs := some [("k", "v"), ("role", "producer")] }

/-! ## Claim C1 -/

/-- C1, counterexample. The claim says that when the bounded queue (capacity
256) is full, `emit` records the event as dropped and returns without
blocking. On the code, `emit` performs `tx.send(event).await`
(visualizer.rs line 200), and tokio's bounded `send` suspends the producer
until the worker frees a slot: at a full open queue the outcome is `blocked`
— the producer waits, the event is not dropped, and the queue is left
untouched until capacity frees. A slow sink therefore can stall the task
path once 256 events have accumulated. -/
theorem c1_counterexample :
    (AgentVisualizer.emit { sender := some fullChannel, sequence := 0 } 0 none
        "task_spawned" "a" none).2 = EmitOutcome.blocked ∧
    (AgentVisualizer.emit { sender := some fullChannel, sequence := 0 } 0 none
        "task_spawned" "a" none).1.sender = some fullChannel := by
  constructor <;> rfl

/-- C1, amended: when the queue is full and the channel open, `emit` suspends
the producer until capacity is available — the event is not dropped; a drop
happens only when the channel is closed. The sequence counter has already
been advanced by the fetch-add before the send. -/
theorem c1_amended (ch : VisualizerChannel) (seq now : Nat)
    (cid : Option String) (aty act : String) (st : Option String)
    (hopen : ch.closed = false) (hfull : channelCapacity ≤ ch.queue.length) :
    AgentVisualizer.emit { sender := some ch, sequence := seq } now cid aty act st =
      ({ sender := some ch, sequence := seq + 1 }, EmitOutcome.blocked) := by
  simp [AgentVisualizer.emit, hopen, Nat.not_lt.mpr hfull]

/-- C1, witness: the amended theorem applied at the concrete full channel. -/
theorem c1_witness :
    fullChannel.closed = false ∧
    channelCapacity ≤ fullChannel.queue.length ∧
    AgentVisualizer.emit { sender := some fullChannel, sequence := 5 } 7 none
        "task_spawned" "a" none =
      ({ sender := some fullChannel, sequence := 6 }, EmitOutcome.blocked) :=
  ⟨rfl, by simp [fullChannel, channelCapacity, List.length_replicate],
    c1_amended fullChannel 5 7 none "task_spawned" "a" none rfl
      (by simp [fullChannel, channelCapacity, List.length_replicate])⟩

/-! ## Claim C3 -/

/-- C3, counterexample. The claim says the reconnect delay doubles after
every failure (so after two consecutive connect failures the sleeps are 1s
then 2s, as the spec-modelled schedule predicts). On the code the delay is
the immutable `retry_delay = Duration::from_secs(1)` (visualizer.rs line
76): two consecutive connect failures sleep 1s twice. -/
theorem c3_counterexample :
    forwarderSleeps 10 true false 0 [false, false] [] = [1, 1] ∧
    specSleepsAfter 2 = [1, 2] ∧
    (forwarderSleeps 10 true false 0 [false, false] [] == specSleepsAfter 2) =
      false := by
  refine ⟨rfl, rfl, rfl⟩

/-- C3, amended: the forwarder worker's reconnect delay is the constant 1s.
Every sleep it ever performs — over any run, any pattern of connect and send
failures — is `retryDelaySecs = 1`; the delay never doubles, never exceeds
1s (hence trivially stays within [1s, 30s] and below min(2^K, 30)), and
needs no reset on a successful connect. -/
theorem c3_amended (fuel : Nat) (p st : Bool) (rx : Nat) (conn snd : List Bool) :
    (forwarderSleeps fuel p st rx conn snd).all
      (fun d => d == retryDelaySecs) = true := by
  induction fuel generalizing p st rx conn snd with
  | zero => rfl
  | succ n ih =>
    cases p with
    | false =>
      cases rx with
      | zero => rfl
      | succ r => simpa [forwarderSleeps] using ih true st r conn snd
    | true =>
      cases st with
      | false =>
        cases conn with
        | nil => rfl
        | cons b conn =>
          cases b with
          | true => simpa [forwarderSleeps] using ih true true rx conn snd
          | false =>
            simpa [forwarderSleeps, retryDelaySecs] using ih true false rx conn snd
      | true =>
        cases snd with
        | nil => rfl
        | cons b snd =>
          cases b with
          | true => simpa [forwarderSleeps] using ih false true rx conn snd
          | false =>
            simpa [forwarderSleeps, retryDelaySecs] using ih true false rx conn snd

/-! ## Claim C4 -/

/-- C4, counterexample. The claim says a scheme-less URL gets `ws://`
prepended, so `localhost:9000` becomes `ws://localhost:9000/?role=producer`.
The code has no scheme-prepending logic anywhere: `ensure_producer_role`
parses the raw string directly (visualizer.rs line 46), `localhost:9000`
parses with scheme `localhost`, and the derived connect URL is
`localhost:9000?role=producer`. -/
theorem c4_counterexample :
    (connectUrl "localhost:9000" == "ws://localhost:9000/?role=producer") =
      false := by
  rfl

/-- C4, amended: the forwarder never prepends a scheme. `localhost:9000`
parses successfully (the `url` crate reads `localhost` as the scheme, so the
fallback branch of `AgentVisualizer::new` is not taken) and is normalized to
`localhost:9000?role=producer`. -/
theorem c4_amended :
    connectUrl "localhost:9000" = "localhost:9000?role=producer" ∧
    Url.parse "localhost:9000" =
      some { scheme := "localhost", authority := none, path := "9000",
             queryPairs := none } := by
  constructor <;> rfl

/-! ## Claim C5 -/

/-- C5: for every URL that parses successfully, the connect URL derived by
`ensure_producer_role` has `role=producer` as the sole `role` pair in its
query, and all non-`role` pairs of the original are preserved in their
original order. -/
theorem c5_role_producer (raw : String) (u v : Url)
    (hu : Url.parse raw = some u) (hv : connectUrlParsed raw = some v) :
    (v.queryPairs.getD []).filter (fun kv => kv.1 == "role") =
      [("role", "producer")] ∧
    (v.queryPairs.getD []).filter (fun kv => kv.1 != "role") =
      (u.queryPairs.getD []).filter (fun kv => kv.1 != "role") := by
  have hv' : v = { u with queryPairs := some (producerQuery (u.queryPairs.getD [])) } := by
    simp [connectUrlParsed, hu] at hv
    exact hv.symm
  subst hv'
  constructor
  · simp [producerQuery, List.filter_append, filter_role_of_filter_ne]
  · simp [producerQuery, List.filter_append, filter_ne_role_idem]

/-- C5, witness: the theorem applied to the spec's example URL
`ws://x/y?role=consumer&k=v`, whose `role=consumer` is replaced and whose
`k=v` is preserved. -/
theorem c5_witness :
    Url.parse exampleRawUrl = some exampleParsedUrl ∧
    connectUrlParsed exampleRawUrl = some exampleConnectUrl ∧
    ((exampleConnectUrl.queryPairs.getD []).filter (fun kv => kv.1 == "role") =
        [("role", "producer")] ∧
      (exampleConnectUrl.queryPairs.getD []).filter (fun kv => kv.1 != "role") =
        (exampleParsedUrl.queryPairs.getD []).filter (fun kv => kv.1 != "role")) :=
  ⟨by rfl, by rfl,
    c5_role_producer exampleRawUrl exampleParsedUrl exampleConnectUrl
      (by rfl) (by rfl)⟩

/-! ## Claim C6 -/

/-- C6, counterexample. The claim says an empty or whitespace-only URL
disables the forwarder with `emit` a no-op. `AgentVisualizer::new` only
checks `Option::Some` versus `None` (visualizer.rs line 64) — there is no
emptiness or whitespace check — so `Some("")` and `Some("   ")` still create
the queue and the background worker, and `emit` enqueues normally. -/
theorem c6_counterexample :
    (AgentVisualizer.new (some "")).sender.isSome = true ∧
    (AgentVisualizer.new (some " \t ")).sender.isSome = true ∧
    (AgentVisualizer.emit (AgentVisualizer.new (some "")) 0 none
        "task_spawned" "a" none).2 = EmitOutcome.enqueued := by
  refine ⟨rfl, rfl, rfl⟩

/-- C6, amended: only an absent URL variable disables the forwarder — the
sender slot is empty exactly when the environment variable was absent, and
with it `emit` is a no-op that returns immediately; a present-but-empty or
whitespace-only URL still creates the queue and worker. -/
theorem c6_amended (u : Option String) (now : Nat) (cid : Option String)
    (aty act : String) (st : Option String) :
    (AgentVisualizer.new u).sender.isNone = u.isNone ∧
    AgentVisualizer.emit (AgentVisualizer.new none) now cid aty act st =
      (AgentVisualizer.new none, EmitOutcome.noop) := by
  cases u <;> simp [AgentVisualizer.new, AgentVisualizer.emit]

/-! ## Claim C7 -/

/-- C7, counterexample. The claim says that once a send in `emit` fails, the
forwarder becomes permanently disabled and every subsequent `emit` performs
no work. On the code the failed send only logs (visualizer.rs lines
200-202); the sender is kept, and a subsequent `emit` still performs work:
it advances the sequence counter (from 1 to 2 here) and attempts — and
fails — another send. -/
theorem c7_counterexample :
    (AgentVisualizer.emit closedViz 0 none "task_spawned" "a" none).2 =
      EmitOutcome.droppedClosed ∧
    (AgentVisualizer.emit closedViz 0 none "task_spawned" "a" none).1.sender.isSome =
      true ∧
    (AgentVisualizer.emit
        (AgentVisualizer.emit closedViz 0 none "task_spawned" "a" none).1 1 none
        "task_completed" "b" none).1.sequence = 2 ∧
    (AgentVisualizer.emit
        (AgentVisualizer.emit closedViz 0 none "task_spawned" "a" none).1 1 none
        "task_completed" "b" none).2 = EmitOutcome.droppedClosed := by
  refine ⟨rfl, rfl, rfl, rfl⟩

/-- C7, amended: a closed channel makes every `emit` drop its event with a
log, but the forwarder is not marked disabled: the sender is retained, the
sequence counter still advances, and each call attempts (and fails) the
send; no event is ever delivered to the queue after the close. -/
theorem c7_amended (ch : VisualizerChannel) (seq now : Nat)
    (cid : Option String) (aty act : String) (st : Option String)
    (hclosed : ch.closed = true) :
    AgentVisualizer.emit { sender := some ch, sequence := seq } now cid aty act st =
      ({ sender := some ch, sequence := seq + 1 }, EmitOutcome.droppedClosed) := by
  simp [AgentVisualizer.emit, hclosed]

/-- C7, witness: the amended theorem applied at a concrete closed channel. -/
theorem c7_witness :
    ({ queue := [sampleEvent], closed := true } : VisualizerChannel).closed = true ∧
    AgentVisualizer.emit
        { sender := some { queue := [sampleEvent], closed := true }, sequence := 3 }
        9 none "task_aborted" "a" none =
      ({ sender := some { queue := [sampleEvent], closed := true }, sequence := 4 },
        EmitOutcome.droppedClosed) :=
  ⟨rfl, c7_amended { queue := [sampleEvent], closed := true } 3 9 none
    "task_aborted" "a" none rfl⟩

/-! ## Claim C8 -/

/-- Each lifecycle critical section keeps the active turn at one task at
most. -/
lemma turnTaskCount_applyOp (s : SessionSt) (op : SessionOp)
    (h : turnTaskCount s ≤ 1) : turnTaskCount (applyOp s op) ≤ 1 := by
  cases op with
  | opAbortAll reason =>
    simp [applyOp, turnTaskCount, abort_all_tasks_activeTurn]
  | opRegister subId kind =>
    simp [applyOp, turnTaskCount, register_new_active_task]
  | opFinish subId m =>
    refine le_trans ?_ h
    unfold applyOp on_task_finished turnTaskCount
    cases hA : s.activeTurn with
    | none => simp
    | some tn =>
      simp only
      split
      · simp
      · rename_i rest hrest
        split at hrest
        · exact absurd hrest (by simp)
        · cases hrest
          simpa using List.length_filter_le _ tn.tasks
  | opSpawn subId kind =>
    simp [applyOp, spawn_task, turnTaskCount, register_new_active_task]

/-- Any sequence of lifecycle critical sections preserves the one-task
bound. -/
lemma turnTaskCount_runOps (l : List SessionOp) :
    ∀ s : SessionSt, turnTaskCount s ≤ 1 → turnTaskCount (runOps s l) ≤ 1 := by
  induction l with
  | nil => intro s h; exact h
  | cons op t ih =>
    intro s h
    exact ih (applyOp s op) (turnTaskCount_applyOp s op h)

/-- C8: the session holds a single `Option ActiveTurn` slot (so at most one
`ActiveTurn` exists per session at any instant); every state reachable from
a fresh session through any interleaving of the lock-protected lifecycle
sections has at most one task in the turn; and `spawn_task` — which first
aborts all prior tasks and only then installs — always leaves a fresh turn
holding exactly the single new mapping. -/
theorem c8_single_turn_single_task (l : List SessionOp) (subId : String)
    (kind : TaskKind) :
    turnTaskCount (runOps initSession l) ≤ 1 ∧
    (spawn_task (runOps initSession l) subId kind).activeTurn =
      some { tasks := [(subId, { finished := false, kind := kind })],
             pendingInput := [] } := by
  refine ⟨turnTaskCount_runOps l initSession (by simp [turnTaskCount, initSession]), ?_⟩
  rfl

/-! ## Claim C9 -/

/-- C9: aborting is idempotent. A second `abort_all_tasks` right after a
first one changes nothing (the first left the active-turn slot empty);
`abort_all_tasks` with no active turn is the identity (no state change, no
events); and `handle_task_abort` on a task whose worker has already finished
returns with no action and no events. -/
theorem c9_abort_idempotent :
    (∀ (s : SessionSt) (r r' : String),
      abort_all_tasks (abort_all_tasks s r) r' = abort_all_tasks s r) ∧
    (∀ (s : SessionSt) (r : String),
      s.activeTurn = none → abort_all_tasks s r = s) ∧
    (∀ (s : SessionSt) (subId : String) (t : RunningTask) (r : String),
      t.finished = true → handle_task_abort s subId t r = s) := by
  have hnone : ∀ (s : SessionSt) (r : String),
      s.activeTurn = none → abort_all_tasks s r = s := by
    intro s r h
    simp [abort_all_tasks, take_all_running_tasks, h]
  refine ⟨?_, hnone, ?_⟩
  · intro s r r'
    exact hnone (abort_all_tasks s r) r' (abort_all_tasks_activeTurn s r)
  · intro s subId t r h
    simp [handle_task_abort, h]

/-- C9, witness: both idempotence parts applied at concrete inputs — the
fresh session has no active turn, and a finished Regular task is skipped. -/
theorem c9_witness :
    abort_all_tasks initSession "Interrupted" = initSession ∧
    handle_task_abort initSession "t1" { finished := true, kind := TaskKind.Regular }
        "Replaced" = initSession :=
  ⟨c9_abort_idempotent.2.1 initSession "Interrupted" rfl,
    c9_abort_idempotent.2.2 initSession "t1"
      { finished := true, kind := TaskKind.Regular } "Replaced" rfl⟩

/-! ## Claim C10 -/

/-- C10: `on_task_finished` with a `sub_id` not present in the active turn
(or with no active turn at all; an existing turn is never empty — spec
section 3 requires tearing an emptied turn down immediately, and
`register_new_active_task` installs singletons) leaves the active-turn slot
unchanged and still appends exactly one `TaskComplete` host event and
exactly one `task_completed` visualizer event. -/
theorem c10_unknown_sub_id (s : SessionSt) (tn : ActiveTurn) (subId : String)
    (m : Option String)
    (h : s.activeTurn = none ∨
      (s.activeTurn = some tn ∧ tn.tasks ≠ [] ∧
        tn.tasks.all (fun p => p.1 != subId) = true)) :
    (on_task_finished s subId m).activeTurn = s.activeTurn ∧
    (on_task_finished s subId m).hostEvents =
      s.hostEvents ++ [HostEvent.taskComplete subId m] ∧
    (on_task_finished s subId m).vizEvents =
      s.vizEvents ++ [("task_completed", subId)] := by
  rcases h with hnone | ⟨hsome, hne, hall⟩
  · simp [on_task_finished, hnone]
  · have hfil : tn.tasks.filter (fun p => p.1 != subId) = tn.tasks :=
      List.filter_eq_self.mpr (fun a ha => List.all_eq_true.mp hall a ha)
    have hemp : tn.tasks.isEmpty = false := by
      cases ht : tn.tasks with
      | nil => exact absurd ht hne
      | cons a t => rfl
    simp [on_task_finished, hsome, hfil, hemp]

/-- An active turn running the single task `t1`, used by the C10 witness. -/
def turnT1 : ActiveTurn :=
  { tasks := [("t1", { finished := false, kind := TaskKind.Regular })],
    pendingInput := [] }

/-- A session whose active turn is `turnT1`, used by the C10 witness. -/
def sessionT1 : SessionSt :=
  { activeTurn := some turnT1, hostEvents := [], vizEvents := [] }

/-- C10, witness: finishing the unknown `sub_id` `ghost` while the turn runs
`t1` keeps the turn and still emits both terminal events once. -/
theorem c10_witness :
    (on_task_finished sessionT1 "ghost" (some "m")).activeTurn =
      sessionT1.activeTurn ∧
    (on_task_finished sessionT1 "ghost" (some "m")).hostEvents =
      sessionT1.hostEvents ++ [HostEvent.taskComplete "ghost" (some "m")] ∧
    (on_task_finished sessionT1 "ghost" (some "m")).vizEvents =
      sessionT1.vizEvents ++ [("task_completed", "ghost")] :=
  c10_unknown_sub_id sessionT1 turnT1 "ghost" (some "m")
    (Or.inr ⟨rfl, by simp [turnT1], by rfl⟩)

/-! ## Claim C2 -/

/-- Inductive invariant of the worker/abort race: each terminal-event
counter equals 1 exactly when the emitting step has run, cancellation can
only have been performed by the abort path after it took the task, the
abort thread past its take holds the task, an early `is_finished` return
jumps to done, and the program counters stay in range. -/
def RaceInv (s : TaskRace) : Prop :=
  s.hostTC = (if 3 ≤ s.wpc then 1 else 0) ∧
  s.vizTC = (if 4 ≤ s.wpc then 1 else 0) ∧
  s.hostTA = (if s.took = true ∧ s.skip = false ∧ 5 ≤ s.apc then 1 else 0) ∧
  s.vizTA = (if s.took = true ∧ s.skip = false ∧ 6 ≤ s.apc then 1 else 0) ∧
  (s.canc = true → s.took = true ∧ s.skip = false ∧ 3 ≤ s.apc) ∧
  (1 ≤ s.apc → s.apc ≤ 5 → s.took = true) ∧
  (s.skip = true → s.apc = 6) ∧
  (s.apc = 0 → s.took = false) ∧
  s.wpc ≤ 4 ∧ s.apc ≤ 6

/-- A worker step preserves the race invariant. -/
lemma wstep_raceInv (s : TaskRace) (h : RaceInv s) : RaceInv (wstep s) := by
  obtain ⟨wpc, apc, canc, turn, took, skip, tc, ta, vc, va⟩ := s
  obtain ⟨h1, h2, h3, h4, h5, h6, h7, h8, h9, h10⟩ := h
  simp only at h1 h2 h3 h4 h5 h6 h7 h8 h9 h10
  cases canc with
  | true => exact ⟨h1, h2, h3, h4, h5, h6, h7, h8, h9, h10⟩
  | false =>
    interval_cases wpc <;>
      simp_all [RaceInv, wstep]

/-- An abort-thread step preserves the race invariant. -/
lemma astep_raceInv (s : TaskRace) (h : RaceInv s) : RaceInv (astep s) := by
  obtain ⟨wpc, apc, canc, turn, took, skip, tc, ta, vc, va⟩ := s
  obtain ⟨h1, h2, h3, h4, h5, h6, h7, h8, h9, h10⟩ := h
  simp only at h1 h2 h3 h4 h5 h6 h7 h8 h9 h10
  interval_cases apc <;>
    cases turn <;> cases took <;> cases skip <;>
      by_cases hw4 : wpc = 4 <;>
        simp_all [RaceInv, astep]

/-- Any scheduled step preserves the race invariant. -/
lemma raceStep_raceInv (s : TaskRace) (t : Thr) (h : RaceInv s) :
    RaceInv (raceStep s t) := by
  cases t with
  | w => exact wstep_raceInv s h
  | a => exact astep_raceInv s h

/-- Every interleaving of the two threads keeps the race invariant. -/
lemma raceExec_raceInv (l : List Thr) : RaceInv (raceExec l) := by
  have step : ∀ (l : List Thr) (s : TaskRace), RaceInv s →
      RaceInv (l.foldl raceStep s) := by
    intro l
    induction l with
    | nil => intro s h; exact h
    | cons t rest ih => intro s h; exact ih (raceStep s t) (raceStep_raceInv s t h)
  exact step l raceInit (by unfold RaceInv raceInit; decide)

/-- C2, counterexample. The claim says that under every interleaving exactly
one of `TaskComplete`/`TurnAborted` reaches the host and exactly one of
`task_completed`/`task_aborted` reaches the visualizer. In this complete
schedule the abort thread takes the turn before the worker's
`on_task_finished` removes it, the `is_finished` check (tasks/mod.rs line
184) sees the worker still inside its finishing sequence, and both threads
then emit: the host receives `TaskComplete` *and* `TurnAborted`, the
visualizer `task_completed` *and* `task_aborted`. -/
theorem c2_counterexample :
    (raceExec [Thr.w, Thr.a, Thr.w, Thr.w, Thr.a, Thr.w, Thr.a, Thr.a, Thr.a,
        Thr.a]).hostTC = 1 ∧
    (raceExec [Thr.w, Thr.a, Thr.w, Thr.w, Thr.a, Thr.w, Thr.a, Thr.a, Thr.a,
        Thr.a]).hostTA = 1 ∧
    (raceExec [Thr.w, Thr.a, Thr.w, Thr.w, Thr.a, Thr.w, Thr.a, Thr.a, Thr.a,
        Thr.a]).vizTC = 1 ∧
    (raceExec [Thr.w, Thr.a, Thr.w, Thr.w, Thr.a, Thr.w, Thr.a, Thr.a, Thr.a,
        Thr.a]).vizTA = 1 ∧
    raceDone (raceExec [Thr.w, Thr.a, Thr.w, Thr.w, Thr.a, Thr.w, Thr.a, Thr.a,
        Thr.a, Thr.a]) = true := by
  refine ⟨rfl, rfl, rfl, rfl, rfl⟩

/-- C2, amended: for every spawned task whose worker started, under every
complete interleaving of worker completion and a concurrent abort, the host
receives at least one of `TaskComplete`/`TurnAborted` and the visualizer at
least one of `task_completed`/`task_aborted`, and each individual event is
emitted at most once; "never neither" holds, but "never both" does not —
when `handle_task_abort` races the worker's finishing sequence, both events
of a pair can be emitted (see the counterexample schedule). -/
theorem c2_amended (l : List Thr) (hdone : raceDone (raceExec l) = true) :
    1 ≤ (raceExec l).hostTC + (raceExec l).hostTA ∧
    (raceExec l).hostTC ≤ 1 ∧ (raceExec l).hostTA ≤ 1 ∧
    1 ≤ (raceExec l).vizTC + (raceExec l).vizTA ∧
    (raceExec l).vizTC ≤ 1 ∧ (raceExec l).vizTA ≤ 1 := by
  obtain ⟨h1, h2, h3, h4, h5, h6, h7, h8, h9, h10⟩ := raceExec_raceInv l
  set r := raceExec l with hr
  have hdone' : (r.wpc = 4 ∨ r.canc = true) ∧ r.apc = 6 := by
    simpa [raceDone] using hdone
  obtain ⟨hwc, hapc⟩ := hdone'
  rcases hwc with hw | hc
  · rw [hw] at h1 h2
    simp only [Nat.le_refl, if_pos, show (3:Nat) ≤ 4 by omega, if_true] at h1 h2
    have hTA : r.hostTA ≤ 1 := by split at h3 <;> omega
    have hVA : r.vizTA ≤ 1 := by split at h4 <;> omega
    refine ⟨by omega, by omega, hTA, by omega, by omega, hVA⟩
  · obtain ⟨htook, hskip, _⟩ := h5 hc
    rw [hapc, htook, hskip] at h3 h4
    simp at h3 h4
    have hTC : r.hostTC ≤ 1 := by split at h1 <;> omega
    have hVC : r.vizTC ≤ 1 := by split at h2 <;> omega
    exact ⟨by omega, hTC, by omega, by omega, hVC, by omega⟩

/-- C2, witness: the amended theorem applied to the race-free schedule in
which the worker finishes completely before the abort runs; the abort finds
the turn empty and the host sees exactly the one `TaskComplete`. -/
theorem c2_witness :
    1 ≤ (raceExec [Thr.w, Thr.w, Thr.w, Thr.w, Thr.a]).hostTC +
        (raceExec [Thr.w, Thr.w, Thr.w, Thr.w, Thr.a]).hostTA ∧
    (raceExec [Thr.w, Thr.w, Thr.w, Thr.w, Thr.a]).hostTC ≤ 1 ∧
    (raceExec [Thr.w, Thr.w, Thr.w, Thr.w, Thr.a]).hostTA ≤ 1 ∧
    1 ≤ (raceExec [Thr.w, Thr.w, Thr.w, Thr.w, Thr.a]).vizTC +
        (raceExec [Thr.w, Thr.w, Thr.w, Thr.w, Thr.a]).vizTA ∧
    (raceExec [Thr.w, Thr.w, Thr.w, Thr.w, Thr.a]).vizTC ≤ 1 ∧
    (raceExec [Thr.w, Thr.w, Thr.w, Thr.w, Thr.a]).vizTA ≤ 1 :=
  c2_amended [Thr.w, Thr.w, Thr.w, Thr.w, Thr.a] (by decide)

end CodexCore
